import Mathlib

/-!
Shallow embedding of the `flow` package (`src/transport/flow/flow.go`) of the
coolpy7_benchmark repository: the loopback `Pipe` connection, the `Flow`
action-list builder, the synchronous executor `Flow.Test` and the
timeout-guarded asynchronous wrapper `Flow.TestAsync`.

Conventions used throughout:
* Go errors are modelled by their message string (`Option String`: `none` is
  a nil error, `some msg` an error whose `Error()` method yields `msg`).
* `packet.GenericPacket` is an interface of which the engine only ever uses
  the canonical string rendering `String()` (and nil-ness); it is modelled by
  a structure carrying a type discriminator and the rendering.
* Blocking Go channel operations are modelled by explicit outcome
  constructors (`blocked`) together with explicit parameters describing
  whether a rendezvous partner is available and, where a Go `select` has
  several ready cases, a `pick` parameter resolving the uniform pseudo-random
  choice the Go runtime makes.
* A Go runtime panic (nil-pointer dereference, close of a closed channel) is
  a fatal fault, not an error value; it is modelled by a distinguished
  `fault`/`none` outcome.
-/

namespace MqttFlow

/-- Model of `packet.GenericPacket`: the engine only uses the type
discriminator `Type()` and the canonical rendering `String()`
(`spec.md` section 6: "the engine never inspects packet fields beyond
these two"). `str` models the `String()` method. -/
structure Packet where
  typ : Nat
  str : String
deriving DecidableEq, Repr

/-- Model of Go `strings.Contains s pat`: `pat` occurs as a contiguous
substring of `s`. -/
def strContains (s pat : String) : Bool :=
  decide (pat.data <:+: s.data)

/-- Model of the `%q` verb of `fmt.Errorf`: the rendering is wrapped in
double quotes (escaping of special characters inside the string is not
modelled; the renderings the engine compares are plain printable text). -/
def quoteStr (s : String) : String :=
  "\"" ++ s ++ "\""

/-- Model of the `Conn` interface, state-passing style: every operation
consumes an abstract connection state and returns the successor state
together with the values the Go method returns.  `Receive` returns a pair
`(packet, error)` whose components are independently nil-able, exactly as
in Go. -/
structure Conn (σ : Type) where
  Send : σ → Packet → σ × Option String
  Receive : σ → σ × (Option Packet × Option String)
  Close : σ → σ × Option String

/-- Model of the loopback `Pipe`: an unbuffered rendezvous channel `pipe`
plus a close-signal channel `close`.  The only persistent state is whether
`close(conn.close)` has happened. -/
structure Pipe where
  closed : Bool
deriving DecidableEq, Repr

/-- Model of `NewPipe`: the close signal has not fired. -/
def NewPipe : Pipe :=
  ⟨false⟩

/-- Outcome of one `Pipe.Send` call. -/
inductive SendRes
  | delivered (pkt : Packet)
  | sendErr (e : String)
  | blocked
deriving DecidableEq, Repr

/-- Outcome of one `Pipe.Receive` call; `eofErr` is Go's `(nil, io.EOF)`. -/
inductive RecvRes
  | got (pkt : Packet)
  | eofErr
  | blocked
deriving DecidableEq, Repr

/-- Model of `Pipe.Send`: a `select` between sending on the rendezvous
channel (ready iff a receiver is queued on it, `receiverWaiting`) and
receiving from the close signal (ready iff `closed`).  When both cases are
ready the Go runtime chooses uniformly at random, resolved here by `pick`
(`true` picks the rendezvous case); when neither is ready the call blocks. -/
def Pipe.Send (conn : Pipe) (pkt : Packet) (receiverWaiting pick : Bool) : SendRes :=
  match receiverWaiting, conn.closed with
  | true, false => .delivered pkt
  | true, true => if pick then .delivered pkt else .sendErr "already closed"
  | false, true => .sendErr "already closed"
  | false, false => .blocked

/-- Model of `Pipe.Receive`: a `select` between receiving from the
rendezvous channel (ready iff a sender is queued on it, carrying
`senderWaiting`) and receiving from the close signal (ready iff `closed`);
`pick` resolves the pseudo-random choice when both are ready. -/
def Pipe.Receive (conn : Pipe) (senderWaiting : Option Packet) (pick : Bool) : RecvRes :=
  match senderWaiting, conn.closed with
  | some p, false => .got p
  | some p, true => if pick then .got p else .eofErr
  | none, true => .eofErr
  | none, false => .blocked

/-- Model of `Pipe.Close`: `close(conn.close)` followed by `return nil`.
Closing an already-closed Go channel is a runtime panic, a fatal fault
rather than a returned error; that outcome is `none`. -/
def Pipe.Close (conn : Pipe) : Option (Pipe × Option String) :=
  if conn.closed then none
  else some (⟨true⟩, none)

/-- Model of the `action` struct: a tagged variant over the eight kinds,
each carrying only the fields its kind uses.  The `wait` channel and the
`run` side-effect function are opaque to the executor's interaction with
the connection and are modelled by opaque identifiers; `delay` durations
are abstract ticks. -/
inductive action
  | send (packet : Packet)
  | receive (packet : Packet)
  | skip
  | wait (ch : Nat)
  | run (fn : Nat)
  | delay (duration : Nat)
  | close
  | end_
deriving DecidableEq, Repr

/-- Model of the `Flow` struct: its single field, the ordered action list. -/
structure Flow where
  actions : List action
deriving DecidableEq, Repr

/-- Model of `New`: an empty action list. -/
def Flow.New : Flow :=
  ⟨[]⟩

/-- Model of `Flow.add`: `f.actions = append(f.actions, action)`. -/
def Flow.add (f : Flow) (a : action) : Flow :=
  ⟨f.actions ++ [a]⟩

/-- Model of the builder method `Flow.Send`. -/
def Flow.Send (f : Flow) (pkt : Packet) : Flow :=
  f.add (.send pkt)

/-- Model of the builder method `Flow.Receive`. -/
def Flow.Receive (f : Flow) (pkt : Packet) : Flow :=
  f.add (.receive pkt)

/-- Model of the builder method `Flow.Skip`. -/
def Flow.Skip (f : Flow) : Flow :=
  f.add .skip

/-- Model of the builder method `Flow.Wait`. -/
def Flow.Wait (f : Flow) (ch : Nat) : Flow :=
  f.add (.wait ch)

/-- Model of the builder method `Flow.Run`. -/
def Flow.Run (f : Flow) (fn : Nat) : Flow :=
  f.add (.run fn)

/-- Model of the builder method `Flow.Delay`. -/
def Flow.Delay (f : Flow) (d : Nat) : Flow :=
  f.add (.delay d)

/-- Model of the builder method `Flow.Close`. -/
def Flow.Close (f : Flow) : Flow :=
  f.add .close

/-- Model of the builder method `Flow.End`. -/
def Flow.End (f : Flow) : Flow :=
  f.add .end_

/-- One operation performed on the connection, recorded for trace
reasoning about which connection calls an execution makes. -/
inductive Op
  | send (pkt : Packet)
  | receive
  | close
deriving DecidableEq, Repr

/-- Result of executing (a part of) a flow: normal completion, a returned
error, or a Go runtime panic (`fault`, from dereferencing a nil packet). -/
inductive TRes (σ : Type)
  | ok (s : σ)
  | err (s : σ) (msg : String)
  | fault
deriving DecidableEq, Repr

/-- Execution of one `action` of `Flow.Test`'s loop body: the trace of
connection operations it performs and its outcome.  Each branch is the
corresponding `case` of the `switch` in the Go source; `wait`, `run` and
`delay` perform no connection operation and (once their blocking is over)
always continue. -/
def execAction {σ : Type} (c : Conn σ) (s : σ) : action → List Op × TRes σ
  | .send pkt =>
    match c.Send s pkt with
    | (s', some e) => ([.send pkt], .err s' ("error sending packet: " ++ e))
    | (s', none) => ([.send pkt], .ok s')
  | .receive pkt =>
    match c.Receive s with
    | (s', (_, some e)) =>
      ([.receive], .err s' ("expected to receive a packet but got error: " ++ e))
    | (s', (some got, none)) =>
      if pkt.str = got.str then ([.receive], .ok s')
      else ([.receive],
        .err s' ("expected packet of " ++ quoteStr pkt.str ++ " but got " ++ quoteStr got.str))
    | (_, (none, none)) => ([.receive], .fault)
  | .skip =>
    match c.Receive s with
    | (s', (_, some e)) =>
      ([.receive], .err s' ("expected to skip over a received packet but got error: " ++ e))
    | (s', (_, none)) => ([.receive], .ok s')
  | .wait _ => ([], .ok s)
  | .run _ => ([], .ok s)
  | .delay _ => ([], .ok s)
  | .close =>
    match c.Close s with
    | (s', some e) =>
      ([.close], .err s' ("expected connection to close successfully but got error: " ++ e))
    | (s', none) => ([.close], .ok s')
  | .end_ =>
    match c.Receive s with
    | (s', (pk, some e)) =>
      if strContains e "EOF" = false then
        ([.receive], .err s' ("expected EOF but got " ++ e))
      else
        match pk with
        | some p => ([.receive], .err s' ("expected no packet but got " ++ p.str))
        | none => ([.receive], .ok s')
    | (s', (pk, none)) =>
      match pk with
      | some p => ([.receive], .err s' ("expected no packet but got " ++ p.str))
      | none => ([.receive], .ok s')

/-- Sequencing of the loop of `Flow.Test`: when a step completes normally
the loop continues from the step's successor state (and the traces
concatenate); on a returned error or a fault the loop stops there, as the
`return` statements in the `switch` of the Go source do. -/
def stepSeq {σ : Type} (x : List Op × TRes σ) (k : σ → List Op × TRes σ) :
    List Op × TRes σ :=
  match x with
  | (ops, .ok s') => (ops ++ (k s').1, (k s').2)
  | (ops, .err s' e) => (ops, .err s' e)
  | (ops, .fault) => (ops, .fault)

/-- The loop of `Flow.Test` over a list of actions: runs them in order,
threading the connection state, and stops at the first action whose
outcome is an error (returning it) or a fault. -/
def runActions {σ : Type} (c : Conn σ) : List action → σ → List Op × TRes σ
  | [], s => ([], .ok s)
  | a :: rest, s => stepSeq (execAction c s a) (runActions c rest)

/-- Model of `Flow.Test`: run the flow's actions in order against the
connection. -/
def Flow.Test {σ : Type} (f : Flow) (c : Conn σ) (s : σ) : List Op × TRes σ :=
  runActions c f.actions s

/-- Model of `Flow.Test` as a state transformer on the flow as well: a Go
method could mutate its receiver through the pointer, so the faithful
state-passing translation also returns the receiver; the body of `Test`
only ranges over `f.actions` and contains no assignment to it, so the
returned flow carries the same action list. -/
def Flow.TestRun {σ : Type} (f : Flow) (c : Conn σ) (s : σ) :
    Flow × (List Op × TRes σ) :=
  (⟨f.actions⟩, runActions c f.actions s)

/-- The error `TestAsync` sends when its timer wins the select. -/
def timeoutErrMsg : String :=
  "timed out waiting for flow to complete"

/-- Value sent on `errCh` by the goroutine of `TestAsync`, following the
Go semantics of its `select`: upon entering the select, the channel
operands and the right-hand sides of send cases are evaluated once, in
source order — first `time.After(timeout)` (starting the timer), then
`f.Test(conn)` (running the whole synchronous executor).  Only then is a
case chosen: the buffered send on `errCh` is always ready, the timer
receive is ready iff the timeout elapsed while `f.Test` ran
(`timerFired`); when both are ready the runtime picks uniformly at
random, resolved by `pick` (`true` picks the timer case).  Exactly one
case body runs, so exactly one value is ever sent. -/
def selectDeliver (testResult : Option String) (timerFired pick : Bool) : Option String :=
  if timerFired then
    if pick then some timeoutErrMsg else testResult
  else testResult

/-- Model of `Flow.TestAsync`: the single value delivered on the returned
channel (`some result`), or `none` when `f.Test` faults, crashing the
goroutine before any send. -/
def Flow.TestAsync {σ : Type} (f : Flow) (c : Conn σ) (s : σ)
    (timerFired pick : Bool) : Option (Option String) :=
  match (f.Test c s).2 with
  | .ok _ => some (selectDeliver none timerFired pick)
  | .err _ e => some (selectDeliver (some e) timerFired pick)
  | .fault => none

/-- A connection over a unit state whose `Receive` always returns the
fixed pair `resp` and whose `Send` and `Close` always succeed; used to
evaluate the executor at concrete inputs. -/
def constConn (resp : Option Packet × Option String) : Conn Unit :=
  { Send := fun s _ => (s, none)
    Receive := fun s => (s, resp)
    Close := fun s => (s, none) }

/-- A connection over a unit state whose `Send` always fails with the
error "boom"; used to evaluate the executor at concrete inputs. -/
def failSendConn : Conn Unit :=
  { Send := fun s _ => (s, some "boom")
    Receive := fun s => (s, (none, some "EOF"))
    Close := fun s => (s, none) }

/-- Sample packet with rendering "CONNECT". -/
def connectPkt : Packet :=
  ⟨1, "CONNECT"⟩

/-- Sample packet with rendering "CONNACK". -/
def connackPkt : Packet :=
  ⟨2, "CONNACK"⟩

/-- Sample packet with rendering "PUBLISH". -/
def publishPkt : Packet :=
  ⟨3, "PUBLISH"⟩

/-- Decision of whole-run success, action by action, following the loop of
`Flow.Test`: every action, executed in sequence from `s`, returns no error
and no fault. -/
def allSucceed {σ : Type} (c : Conn σ) : σ → List action → Bool
  | _, [] => true
  | s, a :: rest =>
    match execAction c s a with
    | (_, .ok s') => allSucceed c s' rest
    | _ => false


theorem stepSeq_ok {σ : Type} (ops : List Op) (s' : σ) (k : σ → List Op × TRes σ) :
    stepSeq (ops, .ok s') k = (ops ++ (k s').1, (k s').2) := rfl

theorem stepSeq_err {σ : Type} (ops : List Op) (s' : σ) (e : String)
    (k : σ → List Op × TRes σ) : stepSeq (ops, .err s' e) k = (ops, .err s' e) := rfl

theorem stepSeq_fault {σ : Type} (ops : List Op) (k : σ → List Op × TRes σ) :
    stepSeq (ops, .fault) k = (ops, .fault) := rfl

/-- Substring containment of the middle component of a concatenation. -/
theorem strContains_append_middle (a b c : String) : strContains (a ++ b ++ c) b = true := by
  simp [strContains, String.data_append]

/-- Substring containment follows from an infix decomposition of the
underlying character lists. -/
theorem strContains_of_infix {s pat : String} (h : pat.data <:+: s.data) :
    strContains s pat = true := by
  simp only [strContains, decide_eq_true_eq]
  exact h

/-- A successful prefix decomposes a run: the suffix starts exactly in the
state the prefix ended in, and traces concatenate in order. -/
theorem runActions_append_ok {σ : Type} (c : Conn σ) (as : List action) :
    ∀ (bs : List action) (s s' : σ) (ops : List Op),
      runActions c as s = (ops, .ok s') →
      runActions c (as ++ bs) s =
        (ops ++ (runActions c bs s').1, (runActions c bs s').2) := by
  induction as with
  | nil =>
    intro bs s s' ops h
    simp only [runActions, Prod.mk.injEq, TRes.ok.injEq] at h
    obtain ⟨h1, h2⟩ := h
    subst h2
    simp [← h1, runActions]
  | cons a as ih =>
    intro bs s s' ops h
    rw [List.cons_append]
    rw [runActions] at h ⊢
    cases hx : execAction c s a with
    | mk xops r =>
      rw [hx] at h
      cases r with
      | ok s1 =>
        rw [stepSeq_ok] at h ⊢
        cases hr : runActions c as s1 with
        | mk ops1 r1 =>
          rw [hr] at h
          simp only [Prod.mk.injEq] at h
          obtain ⟨h1, h2⟩ := h
          subst h2
          rw [ih bs s1 s' ops1 hr]
          simp [← h1, List.append_assoc]
      | err s1 e =>
        rw [stepSeq_err] at h
        simp only [Prod.mk.injEq] at h
        exact absurd h.2 (by simp)
      | fault =>
        rw [stepSeq_fault] at h
        simp only [Prod.mk.injEq] at h
        exact absurd h.2 (by simp)

/-- A failing run of a prefix determines the whole run: the suffix is never
reached. -/
theorem runActions_append_err {σ : Type} (c : Conn σ) (as : List action) :
    ∀ (bs : List action) (s s' : σ) (ops : List Op) (e : String),
      runActions c as s = (ops, .err s' e) →
      runActions c (as ++ bs) s = (ops, .err s' e) := by
  induction as with
  | nil =>
    intro bs s s' ops e h
    simp only [runActions, Prod.mk.injEq] at h
    exact absurd h.2 (by simp)
  | cons a as ih =>
    intro bs s s' ops e h
    rw [List.cons_append]
    rw [runActions] at h ⊢
    cases hx : execAction c s a with
    | mk xops r =>
      rw [hx] at h
      cases r with
      | ok s1 =>
        rw [stepSeq_ok] at h ⊢
        cases hr : runActions c as s1 with
        | mk ops1 r1 =>
          rw [hr] at h
          simp only [Prod.mk.injEq] at h
          obtain ⟨h1, h2⟩ := h
          subst h2
          rw [ih bs s1 s' ops1 e hr]
          simp [← h1]
      | err s1 e1 =>
        rw [stepSeq_err] at h ⊢
        exact h
      | fault =>
        rw [stepSeq_fault] at h
        simp only [Prod.mk.injEq] at h
        exact absurd h.2 (by simp)

/-- Actions other than `close` never perform a `close` operation on the
connection. -/
theorem execAction_no_close {σ : Type} (c : Conn σ) (s : σ) (a : action)
    (ha : a ≠ action.close) : Op.close ∉ (execAction c s a).1 := by
  cases a with
  | send pkt =>
    cases hx : c.Send s pkt with
    | mk s' e => cases e <;> simp [execAction, hx]
  | receive pkt =>
    cases hx : c.Receive s with
    | mk s' pr =>
      obtain ⟨pk, er⟩ := pr
      cases er with
      | some e => simp [execAction, hx]
      | none =>
        cases pk with
        | some got => by_cases hstr : pkt.str = got.str <;> simp [execAction, hx, hstr]
        | none => simp [execAction, hx]
  | skip =>
    cases hx : c.Receive s with
    | mk s' pr =>
      obtain ⟨pk, er⟩ := pr
      cases er <;> simp [execAction, hx]
  | wait ch => simp [execAction]
  | run fn => simp [execAction]
  | delay d => simp [execAction]
  | close => exact absurd rfl ha
  | end_ =>
    cases hx : c.Receive s with
    | mk s' pr =>
      obtain ⟨pk, er⟩ := pr
      cases er with
      | some e =>
        by_cases he : strContains e "EOF" = false
        · simp [execAction, hx, he]
        · cases pk <;> simp [execAction, hx, he]
      | none => cases pk <;> simp [execAction, hx]

/-- A `close` operation in a run's trace can only come from a `close`
action of the list. -/
theorem runActions_close_of_mem {σ : Type} (c : Conn σ) (as : List action) :
    ∀ (s : σ), Op.close ∈ (runActions c as s).1 → action.close ∈ as := by
  induction as with
  | nil => intro s h; simp [runActions] at h
  | cons a as ih =>
    intro s h
    by_cases ha : a = action.close
    · simp [ha]
    · rw [runActions] at h
      cases hx : execAction c s a with
      | mk xops r =>
        rw [hx] at h
        have hnc : Op.close ∉ xops := by
          have h0 := execAction_no_close c s a ha
          rw [hx] at h0
          exact h0
        cases r with
        | ok s1 =>
          rw [stepSeq_ok] at h
          simp only [List.mem_append] at h
          cases h with
          | inl h => exact absurd h hnc
          | inr h => exact List.mem_cons_of_mem a (ih s1 h)
        | err s1 e =>
          rw [stepSeq_err] at h
          exact absurd h hnc
        | fault =>
          rw [stepSeq_fault] at h
          exact absurd h hnc

/-- Whole-run success follows from per-action success. -/
theorem runActions_allSucceed {σ : Type} (c : Conn σ) (as : List action) :
    ∀ (s : σ), allSucceed c s as = true →
      ∃ ops s', runActions c as s = (ops, .ok s') := by
  induction as with
  | nil => intro s _; exact ⟨[], s, rfl⟩
  | cons a as ih =>
    intro s h
    cases hx : execAction c s a with
    | mk xops r =>
      rw [allSucceed, hx] at h
      cases r with
      | ok s1 =>
        obtain ⟨ops1, s', hr⟩ := ih s1 h
        refine ⟨xops ++ ops1, s', ?_⟩
        rw [runActions, hx, stepSeq_ok, hr]
      | err s1 e => simp at h
      | fault => simp at h


/-- Once the close signal has fired, neither `Pipe.Send` nor `Pipe.Receive`
ever blocks, whatever peer availability and whichever case the select
picks: the close case is always ready.  Hence no call issued after `Close`
is ever queued on the rendezvous channel. -/
theorem pipe_closed_never_blocks (conn : Pipe) (pkt : Packet)
    (receiverWaiting pick : Bool) (senderWaiting : Option Packet)
    (h : conn.closed = true) :
    conn.Send pkt receiverWaiting pick ≠ .blocked ∧
    conn.Receive senderWaiting pick ≠ .blocked := by
  obtain ⟨b⟩ := conn
  cases b
  · exact absurd h (by decide)
  · constructor
    · cases receiverWaiting
      · simp [Pipe.Send]
      · cases pick <;> simp [Pipe.Send]
    · cases senderWaiting
      · simp [Pipe.Receive]
      · cases pick <;> simp [Pipe.Receive]

/-- C2: after `Close` has fired the close signal, every subsequent `Send`
returns the "already closed" error and every subsequent `Receive` returns
no packet together with the end-of-stream error `(nil, io.EOF)`, for every
resolution of the select's pseudo-random choice.  Subsequent calls find no
peer queued on the rendezvous channel (the `false`/`none` arguments):
once closed, no call ever blocks (`pipe_closed_never_blocks`), so no call
issued after `Close` is ever queued there. -/
theorem pipe_send_recv_after_close (conn : Pipe) (pkt : Packet) (pick : Bool)
    (h : conn.closed = true) :
    conn.Send pkt false pick = .sendErr "already closed" ∧
    conn.Receive none pick = .eofErr := by
  obtain ⟨b⟩ := conn
  cases b
  · exact absurd h (by decide)
  · exact ⟨rfl, rfl⟩

/-- Witness for `pipe_send_recv_after_close` at the closed pipe. -/
theorem pipe_send_recv_after_close_witness :
    Pipe.Send ⟨true⟩ connectPkt false true = .sendErr "already closed" ∧
    Pipe.Receive ⟨true⟩ none true = .eofErr :=
  pipe_send_recv_after_close ⟨true⟩ connectPkt true rfl

/-- C6: the first `Close` of a fresh pipe triggers the close signal and
returns a nil error; a second `Close` finds the signal already triggered
and is a fatal fault (`none`: Go panics on closing a closed channel), not
a recoverable call returning an error value. -/
theorem pipe_close_once_fatal :
    NewPipe.Close = some (⟨true⟩, none) ∧ Pipe.Close ⟨true⟩ = none := by
  decide

/-- C7: each builder method appends exactly one action of its kind at the
end of the flow's action sequence, leaving all previously appended actions
unchanged, so chained construction builds the sequence in call order. -/
theorem flow_builders_append (f : Flow) (pkt : Packet) (ch fn d : Nat) :
    (f.Send pkt).actions = f.actions ++ [action.send pkt] ∧
    (f.Receive pkt).actions = f.actions ++ [action.receive pkt] ∧
    f.Skip.actions = f.actions ++ [action.skip] ∧
    (f.Wait ch).actions = f.actions ++ [action.wait ch] ∧
    (f.Run fn).actions = f.actions ++ [action.run fn] ∧
    (f.Delay d).actions = f.actions ++ [action.delay d] ∧
    f.Close.actions = f.actions ++ [action.close] ∧
    f.End.actions = f.actions ++ [action.end_] :=
  ⟨rfl, rfl, rfl, rfl, rfl, rfl, rfl, rfl⟩

/-- C8: executing `Test` leaves the flow unchanged — the returned receiver
of the state-passing translation is the flow itself (the body never
assigns to `f.actions`) — so the same flow executed again, against any
other connection, replays the same script. -/
theorem flow_test_leaves_flow_unchanged {σ τ : Type} (f : Flow) (c : Conn σ) (s : σ) :
    (f.TestRun c s).1 = f ∧
    ∀ (c2 : Conn τ) (s2 : τ), ((f.TestRun c s).1).Test c2 s2 = f.Test c2 s2 := by
  obtain ⟨as⟩ := f
  exact ⟨rfl, fun c2 s2 => rfl⟩

/-- C10: a fresh flow has no actions, so `Test` performs no connection
operation at all (empty trace) and returns no error. -/
theorem new_flow_test_no_ops {σ : Type} (c : Conn σ) (s : σ) :
    Flow.New.Test c s = ([], .ok s) :=
  rfl

/-- C3: the synchronous executor is strictly sequential: a successfully
completed prefix is followed by the rest of the script starting in the
prefix's final state (traces concatenate in declaration order); on the
first failing action the wrapped error is returned at once and the
remaining actions contribute nothing; per-action success of the whole
script yields a no-error run; and no close is ever performed unless a
`close` action requests it (no automatic cleanup). -/
theorem flow_test_in_order_stops_at_first_failure {σ : Type} (c : Conn σ) :
    (∀ (as bs : List action) (s s' : σ) (ops : List Op),
        (Flow.mk as).Test c s = (ops, .ok s') →
        (Flow.mk (as ++ bs)).Test c s =
          (ops ++ ((Flow.mk bs).Test c s').1, ((Flow.mk bs).Test c s').2)) ∧
    (∀ (as bs : List action) (a : action) (s s' s'' : σ) (ops aops : List Op) (e : String),
        (Flow.mk as).Test c s = (ops, .ok s') →
        execAction c s' a = (aops, .err s'' e) →
        (Flow.mk (as ++ a :: bs)).Test c s = (ops ++ aops, .err s'' e)) ∧
    (∀ (as : List action) (s : σ),
        allSucceed c s as = true → ∃ ops s', (Flow.mk as).Test c s = (ops, .ok s')) ∧
    (∀ (as : List action) (s : σ),
        Op.close ∈ ((Flow.mk as).Test c s).1 → action.close ∈ as) := by
  refine ⟨?_, ?_, ?_, ?_⟩
  · intro as bs s s' ops h
    exact runActions_append_ok c as bs s s' ops h
  · intro as bs a s s' s'' ops aops e h hx
    have h3 : runActions c (a :: bs) s' = (aops, .err s'' e) := by
      rw [runActions, hx, stepSeq_err]
    have h2 := runActions_append_ok c as (a :: bs) s s' ops h
    show runActions c (as ++ a :: bs) s = (ops ++ aops, .err s'' e)
    rw [h2, h3]
  · intro as s h
    exact runActions_allSucceed c as s h
  · intro as s h
    exact runActions_close_of_mem c as s h

/-- Witness for `flow_test_in_order_stops_at_first_failure` on concrete
flows: a successful prefix decomposition, a first failing send, a fully
successful script, and a close operation traced to its close action. -/
theorem flow_test_in_order_witness :
    ((Flow.mk ([action.delay 1] ++ [action.skip])).Test failSendConn ()
      = ([] ++ ((Flow.mk [action.skip]).Test failSendConn ()).1,
         ((Flow.mk [action.skip]).Test failSendConn ()).2)) ∧
    ((Flow.mk ([action.delay 1] ++ action.send connectPkt :: [action.close])).Test
        failSendConn ()
      = ([] ++ [Op.send connectPkt], .err () "error sending packet: boom")) ∧
    (∃ ops s', (Flow.mk [action.delay 1]).Test (constConn (none, none)) ()
      = (ops, .ok s')) ∧
    (action.close ∈ [action.close]) := by
  refine ⟨?_, ?_, ?_, ?_⟩
  · exact (flow_test_in_order_stops_at_first_failure failSendConn).1
      [action.delay 1] [action.skip] () () [] (by decide)
  · exact (flow_test_in_order_stops_at_first_failure failSendConn).2.1
      [action.delay 1] [action.close] (action.send connectPkt) () () () []
      [Op.send connectPkt] "error sending packet: boom" (by decide) (by decide)
  · exact (flow_test_in_order_stops_at_first_failure (constConn (none, none))).2.2.1
      [action.delay 1] () (by decide)
  · exact (flow_test_in_order_stops_at_first_failure (constConn (none, none))).2.2.2
      [action.close] () (by decide)

/-- C4: for a receive action with expected packet `E`, when the connection
returns a packet `P` with no error the action succeeds iff the canonical
renderings agree character-for-character; on a mismatch the error message
is "expected packet of X but got Y" with both renderings quoted, and it
contains both literal renderings as substrings; when the connection
returns an error the action fails with the wrapped receive-error
message. -/
theorem receive_action_matches_by_rendering {σ : Type} (c : Conn σ) (s s' : σ) (E : Packet) :
    (∀ P : Packet, c.Receive s = (s', (some P, none)) →
        ((execAction c s (.receive E)).2 = TRes.ok s' ↔ E.str = P.str)) ∧
    (∀ P : Packet, c.Receive s = (s', (some P, none)) → E.str ≠ P.str →
        execAction c s (.receive E) =
          ([.receive], .err s'
            ("expected packet of " ++ quoteStr E.str ++ " but got " ++ quoteStr P.str)) ∧
        strContains
          ("expected packet of " ++ quoteStr E.str ++ " but got " ++ quoteStr P.str)
          E.str = true ∧
        strContains
          ("expected packet of " ++ quoteStr E.str ++ " but got " ++ quoteStr P.str)
          P.str = true) ∧
    (∀ (pk : Option Packet) (e : String), c.Receive s = (s', (pk, some e)) →
        execAction c s (.receive E) =
          ([.receive], .err s' ("expected to receive a packet but got error: " ++ e))) := by
  refine ⟨?_, ?_, ?_⟩
  · intro P h
    by_cases hE : E.str = P.str <;> simp [execAction, h, hE]
  · intro P h hne
    refine ⟨by simp [execAction, h, hne], ?_, ?_⟩
    · apply strContains_of_infix
      refine ⟨"expected packet of ".data ++ "\"".data,
        "\"".data ++ " but got ".data ++ "\"".data ++ P.str.data ++ "\"".data, ?_⟩
      simp only [quoteStr, String.data_append, List.append_assoc]
    · apply strContains_of_infix
      refine ⟨"expected packet of ".data ++ "\"".data ++ E.str.data ++ "\"".data
          ++ " but got ".data ++ "\"".data, "\"".data, ?_⟩
      simp only [quoteStr, String.data_append, List.append_assoc]
  · intro pk e h
    simp [execAction, h]

/-- Witness for `receive_action_matches_by_rendering`: expecting CONNECT
while CONNACK arrives fails with a message carrying both renderings, and a
receive error is wrapped. -/
theorem receive_action_matches_witness :
    (execAction (constConn (some connackPkt, none)) () (.receive connectPkt) =
      ([.receive], .err ()
        ("expected packet of " ++ quoteStr connectPkt.str ++ " but got "
          ++ quoteStr connackPkt.str)) ∧
     strContains
       ("expected packet of " ++ quoteStr connectPkt.str ++ " but got "
         ++ quoteStr connackPkt.str) connectPkt.str = true ∧
     strContains
       ("expected packet of " ++ quoteStr connectPkt.str ++ " but got "
         ++ quoteStr connackPkt.str) connackPkt.str = true) ∧
    (execAction (constConn (none, some "conn reset")) () (.receive connectPkt) =
      ([.receive], .err () ("expected to receive a packet but got error: " ++ "conn reset"))) :=
  ⟨(receive_action_matches_by_rendering (constConn (some connackPkt, none)) () ()
      connectPkt).2.1 connackPkt rfl (by decide),
   (receive_action_matches_by_rendering (constConn (none, some "conn reset")) () ()
      connectPkt).2.2 none "conn reset" rfl⟩

/-- C5: an end action receives once and expects an end-of-stream-class
error with no packet: a non-end-of-stream error fails with "expected EOF
but got ...", a non-nil packet fails with "expected no packet but got ..."
— both when it arrives with a nil error (the way the loopback pipe
delivers a packet) and when it arrives next to an end-of-stream-class
error — and no packet with an end-of-stream-class error succeeds. -/
theorem end_action_expects_eof {σ : Type} (c : Conn σ) (s s' : σ) :
    (∀ (pk : Option Packet) (e : String),
        c.Receive s = (s', (pk, some e)) → strContains e "EOF" = false →
        execAction c s .end_ = ([.receive], .err s' ("expected EOF but got " ++ e))) ∧
    (∀ (p : Packet),
        c.Receive s = (s', (some p, none)) →
        execAction c s .end_ =
          ([.receive], .err s' ("expected no packet but got " ++ p.str))) ∧
    (∀ (p : Packet) (e : String),
        c.Receive s = (s', (some p, some e)) → strContains e "EOF" = true →
        execAction c s .end_ =
          ([.receive], .err s' ("expected no packet but got " ++ p.str))) ∧
    (∀ (e : String),
        c.Receive s = (s', (none, some e)) → strContains e "EOF" = true →
        execAction c s .end_ = ([.receive], .ok s')) := by
  refine ⟨?_, ?_, ?_, ?_⟩
  · intro pk e h he
    simp [execAction, h, he]
  · intro p h
    simp [execAction, h]
  · intro p e h he
    simp [execAction, h, he]
  · intro e h he
    simp [execAction, h, he]

/-- Witness for `end_action_expects_eof`: a non-EOF error, a packet
delivered with a nil error, a packet next to an EOF error, and the clean
close case. -/
theorem end_action_expects_eof_witness :
    (execAction (constConn (none, some "conn reset")) () .end_ =
      ([.receive], .err () ("expected EOF but got " ++ "conn reset"))) ∧
    (execAction (constConn (some connackPkt, none)) () .end_ =
      ([.receive], .err () ("expected no packet but got " ++ connackPkt.str))) ∧
    (execAction (constConn (some connackPkt, some "EOF")) () .end_ =
      ([.receive], .err () ("expected no packet but got " ++ connackPkt.str))) ∧
    (execAction (constConn (none, some "EOF")) () .end_ = ([.receive], .ok ())) :=
  ⟨(end_action_expects_eof (constConn (none, some "conn reset")) () ()).1
      none "conn reset" rfl (by decide),
   (end_action_expects_eof (constConn (some connackPkt, none)) () ()).2.1
      connackPkt rfl,
   (end_action_expects_eof (constConn (some connackPkt, some "EOF")) () ()).2.2.1
      connackPkt "EOF" rfl (by decide),
   (end_action_expects_eof (constConn (none, some "EOF")) () ()).2.2.2
      "EOF" rfl (by decide)⟩

/-- C9: the end action also succeeds when `Receive` yields neither packet
nor error, and it accepts as end-of-stream any error whose message merely
contains "EOF" anywhere, not only the canonical `io.EOF` value. -/
theorem end_action_lenient_eof {σ : Type} (c : Conn σ) (s s' : σ) :
    (c.Receive s = (s', (none, none)) →
        execAction c s .end_ = ([.receive], .ok s')) ∧
    (∀ (e : String), c.Receive s = (s', (none, some e)) → strContains e "EOF" = true →
        execAction c s .end_ = ([.receive], .ok s')) := by
  constructor
  · intro h
    simp [execAction, h]
  · intro e h he
    simp [execAction, h, he]

/-- Witness for `end_action_lenient_eof`: no packet and no error at all,
and an error with "EOF" in the middle of its message. -/
theorem end_action_lenient_eof_witness :
    (execAction (constConn (none, none)) () .end_ = ([.receive], .ok ())) ∧
    (execAction (constConn (none, some "unexpected EOF while reading")) () .end_ =
      ([.receive], .ok ())) :=
  ⟨(end_action_lenient_eof (constConn (none, none)) () ()).1 rfl,
   (end_action_lenient_eof (constConn (none, some "unexpected EOF while reading")) () ()).2
      "unexpected EOF while reading" rfl (by decide)⟩

/-- C1 fails on the code: the select of `TestAsync` evaluates `f.Test(conn)`
as the right-hand side of its send case before committing, so the deadline
elapsing first does not make the timeout error the delivered value.  Here a
flow whose only action is a delay longer than the timeout (`timerFired =
true`) has its result (`none`, success) delivered when the pseudo-random
choice takes the send case, instead of the timeout error the claim
requires. -/
theorem testAsync_elapsed_deadline_delivers_flow_result :
    Flow.TestAsync (Flow.New.Delay 5) (constConn (none, none)) () true false = some none ∧
    some (none : Option String) ≠ some (some timeoutErrMsg) := by
  decide

end MqttFlow
